import Mathlib

/-
Verification of the layout, color and data-loading logic of
`codes/viz.py` (Crowdfunding-Project-Outcome-Forecast).

The only non-delegated logic in the source is grid-layout arithmetic
(`hist_panel`, `box_plot`), a fixed color palette (`COLORS`), and the
`read_data` loading routine.  We embed these faithfully below; the two
operations the spec adds on top of the source (`computeLayout` with its
`InvalidArgument` contract, and the `sequential` mode of `colorFor`) are
modelled from the spec and marked as such.
-/

namespace Viz

/-- The fixed color palette (viz.py line 20):
`COLORS = list(sns.color_palette("Set2")) + list(sns.color_palette("Set3"))`.
the seaborn "Set2" palette holds the 8 ColorBrewer Set2 colors and "Set3" the 12
ColorBrewer Set3 colors; each color is represented here by its hex token. -/
def COLORS : List String :=
  ["66c2a5", "fc8d62", "8da0cb", "e78ac3", "a6d854", "ffd92f", "e5c494",
   "b3b3b3",
   "8dd3c7", "ffffb3", "bebada", "fb8072", "80b1d3", "fdb462", "b3de69",
   "fccde5", "d9d9d9", "bc80bd", "ccebc5", "ffed6f"]

/-- Row count of `hist_panel` (viz.py lines 115-116): `rows = count // 2`. -/
def hist_panel_rows (count : Nat) : Nat := count / 2

/-- Row count of `box_plot` (viz.py lines 161-163):
`fig_rows = n_cols // fig_cols` with `fig_cols = 2`. -/
def box_plot_fig_rows (n_cols : Nat) : Nat := n_cols / 2

/-- The truncating row count both panels compute, generalised over the
number of columns per row: integer floor division (viz.py lines 116, 163). -/
def truncRows (variableCount columnsPerRow : Nat) : Nat :=
  variableCount / columnsPerRow

/-- The ceiling row count of the non-lossy layout variant of the spec:
`ceil(variableCount / columnsPerRow)`. -/
def ceilRows (variableCount columnsPerRow : Nat) : Nat :=
  (variableCount + columnsPerRow - 1) / columnsPerRow

/-- Cell of a zero-based index, as `box_plot` computes it directly
(viz.py line 169: `axes[i // fig_cols, i % fig_cols]`). -/
def cellOf (columnsPerRow index : Nat) : Nat × Nat :=
  (index / columnsPerRow, index % columnsPerRow)

/-- matplotlib `add_subplot(rows, cols, num)` places the one-based
position `num` row-major: cell `((num - 1) // cols, (num - 1) % cols)`. -/
def subplotCell (cols pos : Nat) : Nat × Nat :=
  ((pos - 1) / cols, (pos - 1) % cols)

/-- The one-based subplot positions requested by the loop of `hist_panel`
(viz.py lines 120-121): `add_subplot(rows, 2, i + 1)` for `i` in
`range(count)` — all `count` of them, with no skipping. -/
def hist_panel_positions (count : Nat) : List Nat :=
  (List.range count).map (fun i => i + 1)

/-- The cells the truncating layout variant assigns: one per index inside
the declared `rows x columnsPerRow` grid; trailing indices get none. -/
def truncCells (variableCount columnsPerRow : Nat) : List (Nat × Nat) :=
  (List.range (truncRows variableCount columnsPerRow * columnsPerRow)).map
    (cellOf columnsPerRow)

/-- The loop of `box_plot` (viz.py lines 167-170) with the random draws made
explicit as a stream `d`: column `i` is placed at `axes[i // 2, i % 2]`
with color `random.choice(COLORS)`, the `i`-th draw picking index
`d i % COLORS.length` of the palette. -/
def box_plot_placements (d : Nat → Nat) (n_cols : Nat) :
    List ((Nat × Nat) × String) :=
  (List.range n_cols).map
    (fun i => (cellOf 2 i, COLORS.getD (d i % COLORS.length) ""))

/-- Error kinds of the layout core of the spec. -/
inductive ErrKind where
  | invalidArgument : ErrKind
deriving DecidableEq

/-- A computed panel layout: the row count of the grid. -/
structure Layout where
  rows : Int
deriving DecidableEq

/-- Modelled from the spec: `PanelLayoutPlanner.computeLayout`, which is
absent from the source (the source hard-codes `columnsPerRow = 2` and
performs no input validation).  Per the spec it fails with
`InvalidArgument` exactly when `columnsPerRow <= 0` or
`variableCount < 0`, and otherwise returns the truncating row count
`variableCount div columnsPerRow`. -/
def computeLayout (variableCount columnsPerRow : Int) :
    Except ErrKind Layout :=
  if columnsPerRow ≤ 0 ∨ variableCount < 0 then .error .invalidArgument
  else .ok ⟨variableCount / columnsPerRow⟩

/-- Color-selection modes of the `colorFor` operation of the spec. -/
inductive ColorMode where
  | sequential : ColorMode
  | random : ColorMode
deriving DecidableEq

/-- Modelled from the spec: `colorFor(index, mode)`; the `sequential`
mode is absent from the source, which only ever calls
`random.choice(COLORS)`.  Sequential picks `palette[index mod size]`;
random picks the index given by the draw stream `d`, reduced mod size. -/
def colorFor (palette : List String) (mode : ColorMode) (d : Nat → Nat)
    (index : Nat) : String :=
  match mode with
  | .sequential => palette.getD (index % palette.length) ""
  | .random => palette.getD (d index % palette.length) ""

/-- A cell of the tabular dataset: missing, a raw value, or a parsed
calendar timestamp. -/
inductive Cell where
  | na : Cell
  | str : String → Cell
  | dt : Int → Cell
deriving DecidableEq

/-- Whether a cell is missing. -/
def Cell.isna : Cell → Bool
  | .na => true
  | _ => false

/-- A data frame: a header of column names and rows of cells aligned
with the header. -/
structure Frame where
  header : List String
  rows : List (List Cell)
deriving DecidableEq

/-- Embedding of `data.dropna(axis=0)` (viz.py lines 41-42): remove every row that
contains a missing value. -/
def dropna (f : Frame) : Frame :=
  { f with rows := f.rows.filter (fun r => !(r.any Cell.isna)) }

/-- Embedding of `data[c] = pd.to_datetime(data[c])` (viz.py lines 44-45): apply the
timestamp parser to each cell sitting under a header equal to `c`,
leaving every other cell of each row as is. -/
def to_datetime_col (parse : Cell → Cell) (c : String) (f : Frame) :
    Frame :=
  { f with rows := f.rows.map (fun r =>
      List.zipWith (fun h v => if h = c then parse v else v) f.header r) }

/-- Embedding of `read_data` (viz.py lines 27-47): load the raw frame, drop rows with
any missing value when `drop_na` is set, then parse the `date_posted`
and `datefullyfunded` columns with the timestamp parser. -/
def read_data (parse : Cell → Cell) (raw : Frame) (drop_na : Bool) :
    Frame :=
  let data := if drop_na then dropna raw else raw
  let data := to_datetime_col parse "date_posted" data
  to_datetime_col parse "datefullyfunded" data

/-- Whether a header names one of the two designated date columns. -/
def isDateCol (h : String) : Bool :=
  h = "date_posted" || h = "datefullyfunded"

/-- The combined per-row effect of the two `to_datetime`
assignments of `read_data`: parse exactly the cells under a designated date column. -/
def processRow (parse : Cell → Cell) (header : List String)
    (row : List Cell) : List Cell :=
  List.zipWith (fun h v => if isDateCol h then parse v else v) header row

end Viz

namespace Viz

/-- C1: for every `variableCount ≥ 0` and `columnsPerRow ≥ 1`, the
truncating layout variant (used by the histogram panel, viz.py lines 115-116)
computes `rows` as floor division of `variableCount` by `columnsPerRow`,
so `rows * columnsPerRow ≤ variableCount`, and every cell it assigns has
row index strictly less than `rows`. -/
theorem trunc_layout_sound (variableCount columnsPerRow : Nat)
    (hc : 1 ≤ columnsPerRow) :
    truncRows variableCount columnsPerRow = variableCount / columnsPerRow ∧
    truncRows variableCount columnsPerRow * columnsPerRow ≤ variableCount ∧
    ∀ cell ∈ truncCells variableCount columnsPerRow,
      cell.1 < truncRows variableCount columnsPerRow := by
  refine ⟨rfl, Nat.div_mul_le_self _ _, ?_⟩
  intro cell hcell
  rcases List.mem_map.mp hcell with ⟨i, hi, rfl⟩
  rw [List.mem_range] at hi
  have hc0 : 0 < columnsPerRow := hc
  exact (Nat.div_lt_iff_lt_mul hc0).mpr hi

/-- Witness for C1 at `variableCount = 11`, `columnsPerRow = 2`. -/
theorem trunc_layout_sound_witness :
    truncRows 11 2 = 11 / 2 ∧ truncRows 11 2 * 2 ≤ 11 ∧
    ∀ cell ∈ truncCells 11 2, cell.1 < truncRows 11 2 :=
  trunc_layout_sound 11 2 (by decide)

/-- C2: for every index, `cellOf` gives
`(index div columnsPerRow, index mod columnsPerRow)`; the one-based
subplot position `i + 1` of `hist_panel` lands on the same cell; with
`variableCount = 10`, `columnsPerRow = 2` we get `rows = 5` and
`cellOf 7 = (3, 1)`; and the row component is non-decreasing in the
index, increasing exactly when the index crosses a multiple of
`columnsPerRow`. -/
theorem cellOf_spec (columnsPerRow : Nat) (hc : 1 ≤ columnsPerRow) :
    (∀ index, cellOf columnsPerRow index =
        (index / columnsPerRow, index % columnsPerRow)) ∧
    (∀ i, subplotCell columnsPerRow (i + 1) = cellOf columnsPerRow i) ∧
    truncRows 10 2 = 5 ∧ cellOf 2 7 = (3, 1) ∧
    (∀ i, (cellOf columnsPerRow i).1 ≤ (cellOf columnsPerRow (i + 1)).1) ∧
    (∀ i, if columnsPerRow ∣ (i + 1)
      then (cellOf columnsPerRow (i + 1)).1 = (cellOf columnsPerRow i).1 + 1
      else (cellOf columnsPerRow (i + 1)).1 = (cellOf columnsPerRow i).1) := by
  refine ⟨fun _ => rfl, fun i => rfl, rfl, rfl, ?_, ?_⟩
  · intro i
    exact Nat.div_le_div_right (Nat.le_succ i)
  · intro i
    have h := Nat.succ_div i columnsPerRow
    by_cases hd : columnsPerRow ∣ (i + 1) <;>
      simp [cellOf, hd, h]

/-- Witness for C2 at `columnsPerRow = 2`. -/
theorem cellOf_spec_witness :
    (∀ index, cellOf 2 index = (index / 2, index % 2)) ∧
    (∀ i, subplotCell 2 (i + 1) = cellOf 2 i) ∧
    truncRows 10 2 = 5 ∧ cellOf 2 7 = (3, 1) ∧
    (∀ i, (cellOf 2 i).1 ≤ (cellOf 2 (i + 1)).1) ∧
    (∀ i, if 2 ∣ (i + 1)
      then (cellOf 2 (i + 1)).1 = (cellOf 2 i).1 + 1
      else (cellOf 2 (i + 1)).1 = (cellOf 2 i).1) :=
  cellOf_spec 2 (by decide)

/-- C3: in the truncating variant with `variableCount = 11` and
`columnsPerRow = 2`, `rows = 5` and index `10` receives no cell inside
the `rows x 2` grid: it is outside the assigned index range, the row of
its cell equals `rows`, and no cell of the assigned grid is its cell. -/
theorem trunc_drops_trailing :
    truncRows 11 2 = 5 ∧
    10 ∉ List.range (truncRows 11 2 * 2) ∧
    (cellOf 2 10).1 = truncRows 11 2 ∧
    cellOf 2 10 ∉ truncCells 11 2 := by decide

/-- C4: evaluation at the failing input `n_cols = 11`: `box_plot`
computes `fig_rows = 5` by floor division (viz.py line 163), not the
claimed ceiling `6`, and the cell `(5, 0)` of the 11th column lies outside
the declared `fig_rows x 2` axes grid. -/
theorem box_plot_rows_not_ceiling :
    box_plot_fig_rows 11 = 5 ∧
    ceilRows 11 2 = 6 ∧
    box_plot_fig_rows 11 ≠ ceilRows 11 2 ∧
    cellOf 2 10 = (5, 0) ∧
    ¬ (cellOf 2 10).1 < box_plot_fig_rows 11 := by decide

/-- C10: for every odd `count`, the loop of `hist_panel` requests the
one-based subplot position `count` while the declared grid has only
`rows * 2 = count - 1` positions, so the last request lies outside the
grid rather than being skipped. -/
theorem hist_panel_odd_out_of_grid (count : Nat) (hodd : count % 2 = 1) :
    count ∈ hist_panel_positions count ∧
    hist_panel_rows count * 2 = count - 1 ∧
    hist_panel_rows count * 2 < count := by
  have hdm := Nat.div_add_mod count 2
  have hpos : 1 ≤ count := by omega
  refine ⟨?_, ?_, ?_⟩
  · simp only [hist_panel_positions, List.mem_map, List.mem_range]
    exact ⟨count - 1, by omega, by omega⟩
  · simp only [hist_panel_rows]
    omega
  · simp only [hist_panel_rows]
    omega

/-- C5: `computeLayout` fails with the `InvalidArgument` error kind
exactly when `columnsPerRow ≤ 0` or `variableCount < 0`, and otherwise
succeeds with the truncating row count — no other failure mode exists. -/
theorem computeLayout_invalid_iff (variableCount columnsPerRow : Int) :
    (computeLayout variableCount columnsPerRow = .error .invalidArgument ↔
      columnsPerRow ≤ 0 ∨ variableCount < 0) ∧
    (0 < columnsPerRow ∧ 0 ≤ variableCount →
      computeLayout variableCount columnsPerRow =
        .ok ⟨variableCount / columnsPerRow⟩) := by
  constructor
  · unfold computeLayout
    by_cases h : columnsPerRow ≤ 0 ∨ variableCount < 0 <;> simp [h]
  · intro ⟨h1, h2⟩
    unfold computeLayout
    have h : ¬ (columnsPerRow ≤ 0 ∨ variableCount < 0) := by omega
    simp [h]

/-- Witness for C5 at `variableCount = 10`, `columnsPerRow = 2` and at
the invalid input `columnsPerRow = 0`. -/
theorem computeLayout_invalid_iff_witness :
    computeLayout 10 2 = .ok ⟨5⟩ ∧
    computeLayout 10 0 = .error .invalidArgument := by
  refine ⟨?_, ?_⟩
  · have h := (computeLayout_invalid_iff 10 2).2 (by omega)
    simpa using h
  · exact ((computeLayout_invalid_iff 10 0).1).mpr (Or.inl le_rfl)

/-- C6: the cell assigned to each column by the loop of `box_plot` is a pure,
deterministic function of the index alone: it is unchanged under any
change of the random draw stream, and equals `cellOf 2 i` for every
index `i` below the column count. -/
theorem box_plot_cells_pure (d₁ d₂ : Nat → Nat) (n_cols : Nat) :
    (box_plot_placements d₁ n_cols).map Prod.fst =
      (box_plot_placements d₂ n_cols).map Prod.fst ∧
    ∀ i, i < n_cols →
      ((box_plot_placements d₁ n_cols).map Prod.fst).getD i (0, 0) =
        cellOf 2 i := by
  constructor
  · simp [box_plot_placements, List.map_map, Function.comp_def]
  · intro i hi
    simp [box_plot_placements, List.map_map, Function.comp_def,
      List.getD_eq_getElem?_getD, List.getElem?_map, List.getElem?_range, hi]

/-- Witness for C6 at two concrete draw streams and `n_cols = 5`. -/
theorem box_plot_cells_pure_witness :
    (box_plot_placements (fun _ => 0) 5).map Prod.fst =
      (box_plot_placements (fun i => 7 * i + 3) 5).map Prod.fst ∧
    ∀ i, i < 5 →
      ((box_plot_placements (fun _ => 0) 5).map Prod.fst).getD i (0, 0) =
        cellOf 2 i :=
  box_plot_cells_pure (fun _ => 0) (fun i => 7 * i + 3) 5

/-- C7: `colorFor` in `sequential` mode picks `palette[index mod size]`,
ignores the random draw stream (determinism), is periodic with period
the palette size, and on a 3-color palette gives identical colors at
indices 0, 3 and 6. -/
theorem colorFor_sequential_periodic (palette : List String)
    (hne : palette ≠ []) (d d' : Nat → Nat) :
    (∀ index, colorFor palette .sequential d index =
        palette.getD (index % palette.length) "") ∧
    (∀ index, colorFor palette .sequential d index =
        colorFor palette .sequential d' index) ∧
    (∀ index, colorFor palette .sequential d (index + palette.length) =
        colorFor palette .sequential d index) ∧
    (colorFor ["r", "g", "b"] .sequential d 0 =
        colorFor ["r", "g", "b"] .sequential d 3 ∧
      colorFor ["r", "g", "b"] .sequential d 3 =
        colorFor ["r", "g", "b"] .sequential d 6) := by
  refine ⟨fun _ => rfl, fun _ => rfl, ?_, ⟨rfl, rfl⟩⟩
  intro index
  simp [colorFor, Nat.add_mod_right]

/-- Witness for C7 at the source palette `COLORS` and concrete streams. -/
theorem colorFor_sequential_periodic_witness :
    (∀ index, colorFor COLORS .sequential (fun _ => 0) index =
        COLORS.getD (index % COLORS.length) "") ∧
    (∀ index, colorFor COLORS .sequential (fun _ => 0) index =
        colorFor COLORS .sequential (fun i => i + 1) index) ∧
    (∀ index, colorFor COLORS .sequential (fun _ => 0)
        (index + COLORS.length) =
        colorFor COLORS .sequential (fun _ => 0) index) ∧
    (colorFor ["r", "g", "b"] .sequential (fun _ => 0) 0 =
        colorFor ["r", "g", "b"] .sequential (fun _ => 0) 3 ∧
      colorFor ["r", "g", "b"] .sequential (fun _ => 0) 3 =
        colorFor ["r", "g", "b"] .sequential (fun _ => 0) 6) :=
  colorFor_sequential_periodic COLORS (by decide) (fun _ => 0)
    (fun i => i + 1)

/-- C8: the palette `COLORS` is non-empty and deduplicated: it holds at
least one color and no color token appears twice. -/
theorem COLORS_nonempty_nodup : COLORS ≠ [] ∧ COLORS.Nodup := by
  constructor
  · decide
  · decide

/-- Fusing two same-header `zipWith` passes over a row into one pass. -/
theorem zipWith_zipWith_same (f g : String → Cell → Cell)
    (h : List String) (r : List Cell) :
    List.zipWith f h (List.zipWith g h r) =
      List.zipWith (fun a v => f a (g a v)) h r := by
  induction h generalizing r with
  | nil => simp
  | cons a as ih =>
    cases r with
    | nil => simp
    | cons v vs => simp [ih]

/-- The composite of the two `to_datetime` cell transforms equals a
single pass testing membership in the designated date columns. -/
theorem date_transform_eq (parse : Cell → Cell) (a : String) (v : Cell) :
    (if a = "datefullyfunded" then
        parse (if a = "date_posted" then parse v else v)
      else if a = "date_posted" then parse v else v) =
      if isDateCol a then parse v else v := by
  by_cases h1 : a = "date_posted"
  · subst h1
    simp [isDateCol]
  · by_cases h2 : a = "datefullyfunded" <;> simp [isDateCol, h1, h2]

/-- C9: `read_data` keeps the header; with `drop_na` unset the row set
is unchanged (each row only reprocessed in place), with `drop_na` set
exactly the rows containing a missing value are removed; and the per-row
processing parses exactly the cells under the two designated date
columns (`date_posted`, `datefullyfunded`), leaving every other cell as
loaded. -/
theorem read_data_spec (parse : Cell → Cell) (raw : Frame)
    (drop_na : Bool) :
    (read_data parse raw drop_na).header = raw.header ∧
    (read_data parse raw false).rows =
      raw.rows.map (processRow parse raw.header) ∧
    (read_data parse raw true).rows =
      (raw.rows.filter (fun r => !(r.any Cell.isna))).map
        (processRow parse raw.header) ∧
    ∀ header row k, k < List.length header → k < List.length row →
      (processRow parse header row).getD k Cell.na =
        (if isDateCol (header.getD k "") then parse (row.getD k Cell.na)
          else row.getD k Cell.na) := by
  have hfun : (fun (a : String) (v : Cell) =>
      (fun (h : String) (v : Cell) =>
          if h = "datefullyfunded" then parse v else v) a
        ((fun (h : String) (v : Cell) =>
          if h = "date_posted" then parse v else v) a v)) =
      fun a v => if isDateCol a then parse v else v := by
    funext a v
    exact date_transform_eq parse a v
  have hrows : ∀ rs : List (List Cell),
      (rs.map (fun r => List.zipWith
          (fun h v => if h = "date_posted" then parse v else v)
          raw.header r)).map
        (fun r => List.zipWith
          (fun h v => if h = "datefullyfunded" then parse v else v)
          raw.header r) =
      rs.map (processRow parse raw.header) := by
    intro rs
    rw [List.map_map]
    refine List.map_congr_left fun r _ => ?_
    simp only [Function.comp_def, zipWith_zipWith_same, hfun, processRow]
  refine ⟨?_, ?_, ?_, ?_⟩
  · cases drop_na <;> rfl
  · simpa [read_data, to_datetime_col, dropna] using hrows raw.rows
  · simpa [read_data, to_datetime_col, dropna] using
      hrows (raw.rows.filter (fun r => !(r.any Cell.isna)))
  · intro header row k hk1 hk2
    have hk : k < (List.zipWith
        (fun h v => if isDateCol h then parse v else v) header row).length := by
      rw [List.length_zipWith]
      omega
    rw [processRow, List.getD_eq_getElem _ _ hk, List.getElem_zipWith,
      List.getD_eq_getElem header _ hk1, List.getD_eq_getElem row _ hk2]

/-- Witness for C9 at a concrete parser and frame with a missing cell. -/
theorem read_data_spec_witness :
    (read_data (fun _ => Cell.dt 0)
        ⟨["date_posted", "x", "datefullyfunded"],
          [[Cell.str "a", Cell.str "b", Cell.str "c"],
           [Cell.str "d", Cell.na, Cell.str "e"]]⟩ true).header =
      ["date_posted", "x", "datefullyfunded"] ∧
    (read_data (fun _ => Cell.dt 0)
        ⟨["date_posted", "x", "datefullyfunded"],
          [[Cell.str "a", Cell.str "b", Cell.str "c"],
           [Cell.str "d", Cell.na, Cell.str "e"]]⟩ false).rows =
      ([[Cell.str "a", Cell.str "b", Cell.str "c"],
        [Cell.str "d", Cell.na, Cell.str "e"]].map
        (processRow (fun _ => Cell.dt 0)
          ["date_posted", "x", "datefullyfunded"])) ∧
    (read_data (fun _ => Cell.dt 0)
        ⟨["date_posted", "x", "datefullyfunded"],
          [[Cell.str "a", Cell.str "b", Cell.str "c"],
           [Cell.str "d", Cell.na, Cell.str "e"]]⟩ true).rows =
      (([[Cell.str "a", Cell.str "b", Cell.str "c"],
         [Cell.str "d", Cell.na, Cell.str "e"]].filter
          (fun r => !(r.any Cell.isna))).map
        (processRow (fun _ => Cell.dt 0)
          ["date_posted", "x", "datefullyfunded"])) ∧
    ∀ header row k, k < List.length header → k < List.length row →
      (processRow (fun _ => Cell.dt 0) header row).getD k Cell.na =
        (if isDateCol (header.getD k "") then
            (fun _ => Cell.dt 0) (row.getD k Cell.na)
          else row.getD k Cell.na) :=
  read_data_spec (fun _ => Cell.dt 0)
    ⟨["date_posted", "x", "datefullyfunded"],
      [[Cell.str "a", Cell.str "b", Cell.str "c"],
       [Cell.str "d", Cell.na, Cell.str "e"]]⟩ true

/-- Witness for C10 at `count = 11`. -/
theorem hist_panel_odd_out_of_grid_witness :
    11 ∈ hist_panel_positions 11 ∧
    hist_panel_rows 11 * 2 = 11 - 1 ∧
    hist_panel_rows 11 * 2 < 11 :=
  hist_panel_odd_out_of_grid 11 (by decide)

end Viz
